import Mathlib

/-!
Shallow embedding of the shader parameter handling module
(src/render/shade.rs of gaoxiaojun/gfx).

Modelling conventions:
- Machine values that the module never computes with (i32 payloads, f32
  payloads, buffer handles, texture parameters) are kept as type
  parameters: the code only moves them around, so every theorem proved
  for arbitrary payload types holds for the concrete machine types.
- Rust's interior-mutability cell (std::cell::Cell) is modelled by
  passing the dictionary value explicitly: the value stored in a cell at
  the moment of a call is the value in the Lean structure passed to the
  corresponding function.
- A Rust panic (Option::unwrap on None, out-of-bounds indexing) is
  modelled as the result none; a normal return of x is some x.
-/

set_option autoImplicit false

variable {α β γ : Type}
variable {I F U B T : Type}

/-- The tagged uniform value union (device::shade::UniformValue), with the
i32 payload type I and the f32 payload type F abstracted; fixed-size Rust
arrays are modelled as iterated products. -/
inductive UniformValue (I F : Type) where
  | I32 (v : I)
  | F32 (v : F)
  | I32Vector2 (v : I × I)
  | I32Vector3 (v : I × I × I)
  | I32Vector4 (v : I × I × I × I)
  | F32Vector2 (v : F × F)
  | F32Vector3 (v : F × F × F)
  | F32Vector4 (v : F × F × F × F)
  | F32Matrix2 (v : (F × F) × (F × F))
  | F32Matrix3 (v : (F × F × F) × (F × F × F) × (F × F × F))
  | F32Matrix4 (v : (F × F × F × F) × (F × F × F × F) × (F × F × F × F) × (F × F × F × F))
  deriving DecidableEq

/-- impl ToUniform for i32: wraps the value in UniformValue::I32. -/
def toUniformI32 (x : I) : UniformValue I F := UniformValue.I32 x

/-- impl ToUniform for f32. -/
def toUniformF32 (x : F) : UniformValue I F := UniformValue.F32 x

/-- impl ToUniform for [i32; 2]. -/
def toUniformI32Vector2 (x : I × I) : UniformValue I F := UniformValue.I32Vector2 x

/-- impl ToUniform for [i32; 3]. -/
def toUniformI32Vector3 (x : I × I × I) : UniformValue I F := UniformValue.I32Vector3 x

/-- impl ToUniform for [i32; 4]. -/
def toUniformI32Vector4 (x : I × I × I × I) : UniformValue I F := UniformValue.I32Vector4 x

/-- impl ToUniform for [f32; 2]. -/
def toUniformF32Vector2 (x : F × F) : UniformValue I F := UniformValue.F32Vector2 x

/-- impl ToUniform for [f32; 3]. -/
def toUniformF32Vector3 (x : F × F × F) : UniformValue I F := UniformValue.F32Vector3 x

/-- impl ToUniform for [f32; 4]. -/
def toUniformF32Vector4 (x : F × F × F × F) : UniformValue I F := UniformValue.F32Vector4 x

/-- impl ToUniform for [[f32; 2]; 2]. -/
def toUniformF32Matrix2 (x : (F × F) × (F × F)) : UniformValue I F := UniformValue.F32Matrix2 x

/-- impl ToUniform for [[f32; 3]; 3]. -/
def toUniformF32Matrix3 (x : (F × F × F) × (F × F × F) × (F × F × F)) : UniformValue I F :=
  UniformValue.F32Matrix3 x

/-- impl ToUniform for [[f32; 4]; 4]. -/
def toUniformF32Matrix4
    (x : (F × F × F × F) × (F × F × F × F) × (F × F × F × F) × (F × F × F × F)) :
    UniformValue I F := UniformValue.F32Matrix4 x

/-- An error type on either the parameter storage or the program side. -/
inductive ParameterError where
  | ParameterGeneralMismatch
  | MissingUniform (name : String)
  | MissingBlock (name : String)
  | MissingTexture (name : String)
  deriving DecidableEq

/-- Modelled from the spec: one descriptor of the reflected program
interface carries at least a name; the fields of the device-layer
UniformVar / BlockVar / SamplerVar other than the name are never read by
this module, so only the name is embedded. -/
structure VarInfo where
  name : String
  deriving DecidableEq

/-- Modelled from the spec: the reflected program interface
(device::shade::ProgramInfo) — ordered lists of required uniform, block
and texture descriptors. -/
structure ProgramInfo where
  uniforms : List VarInfo
  blocks : List VarInfo
  textures : List VarInfo
  deriving DecidableEq

/-- A named cell containing an arbitrary value; the stored value is the
cell's current content at the moment of the call the structure is passed
to. -/
structure NamedCell (T : Type) where
  name : String
  value : T
  deriving DecidableEq

/-- A dictionary of parameters, meant to be shared between different
programs; U, B, T abstract UniformValue, RawBufferHandle, TextureParam. -/
structure ParamDictionary (U B T : Type) where
  uniforms : List (NamedCell U)
  blocks : List (NamedCell B)
  textures : List (NamedCell T)
  deriving DecidableEq

/-- Redirects program input to the relevant ParamDictionary cell. -/
structure ParamDictionaryLink where
  uniforms : List Nat
  blocks : List Nat
  textures : List Nat
  deriving DecidableEq

/-- The borrowed mutable storage for shader parameter values (ParamValues);
mutation is modelled by returning the updated triple. -/
structure ParamValues (U B T : Type) where
  uniforms : List U
  blocks : List B
  textures : List T
  deriving DecidableEq

/-- Iterator::position — index of the first element satisfying the
predicate. -/
def position (p : α → Bool) : List α → Option Nat
  | [] => none
  | x :: xs => if p x then some 0 else (position p xs).map (fun i => i + 1)

/-- Collecting an iterator of fallible steps: stops at the first failure
(a Rust panic inside a map over the iterator is modelled as the failure
of that step). -/
def collectOpt (f : α → Option β) : List α → Option (List β)
  | [] => some []
  | x :: xs => (f x).bind (fun y => (collectOpt f xs).map (fun ys => y :: ys))

/-- The lookup loop of ParamDictionary::create_link for one category:
for each required variable, the position of the first cell with a
matching name; the source unwraps the position, so a failed lookup is a
panic (none). -/
def resolve (cells : List (NamedCell γ)) (vars : List VarInfo) : Option (List Nat) :=
  collectOpt (fun var => position (fun c => c.name == var.name) cells) vars

/-- The read loop of ParamDictionary::fill_params for one category:
self.cells[id].value.get() for each id, with out-of-bounds indexing a
panic (none). -/
def fetch (cells : List (NamedCell γ)) (ids : List Nat) : Option (List γ) :=
  collectOpt (fun id => (cells[id]?).map (fun c => c.value)) ids

/-- impl ShaderParam for (): create_link — reports the name of the first
required uniform, else the first required block, else the first required
texture, else succeeds; the source argument is ignored. -/
def unitCreateLink (_this : Option Unit) (info : ProgramInfo) : Except ParameterError Unit :=
  match info.uniforms with
  | u :: _ => Except.error (ParameterError.MissingUniform u.name)
  | [] =>
    match info.blocks with
    | b :: _ => Except.error (ParameterError.MissingBlock b.name)
    | [] =>
      match info.textures with
      | t :: _ => Except.error (ParameterError.MissingTexture t.name)
      | [] => Except.ok ()

/-- impl ShaderParam for (): fill_params — empty. -/
def unitFillParams (_this : Unit) (_link : Unit) (params : ParamValues U B T) :
    ParamValues U B T := params

/-- impl ShaderParam for ParamDictionary: create_link. A None source
returns Err(ParameterGeneralMismatch); otherwise each required name is
resolved to the position of the first matching cell, with a failed
lookup a panic (the unwrap in the source), modelled as none. -/
def ParamDictionary.create_link (this : Option (ParamDictionary U B T)) (info : ProgramInfo) :
    Option (Except ParameterError ParamDictionaryLink) :=
  match this with
  | none => some (Except.error ParameterError.ParameterGeneralMismatch)
  | some d =>
    (resolve d.uniforms info.uniforms).bind (fun us =>
      (resolve d.blocks info.blocks).bind (fun bs =>
        (resolve d.textures info.textures).map (fun ts =>
          Except.ok ⟨us, bs, ts⟩)))

/-- impl ShaderParam for ParamDictionary: fill_params — pushes the current
value of every linked cell, category by category, onto the sink; an
out-of-bounds index is a panic (none). -/
def ParamDictionary.fill_params (d : ParamDictionary U B T) (link : ParamDictionaryLink)
    (params : ParamValues U B T) : Option (ParamValues U B T) :=
  (fetch d.uniforms link.uniforms).bind (fun us =>
    (fetch d.blocks link.blocks).bind (fun bs =>
      (fetch d.textures link.textures).map (fun ts =>
        ⟨params.uniforms ++ us, params.blocks ++ bs, params.textures ++ ts⟩)))

/-! ### Helper lemmas -/

/-- A successful Iterator::position points at an element satisfying the
predicate, and that element is exactly the one Iterator::find would
return (the first match). -/
theorem position_spec (p : α → Bool) :
    ∀ (l : List α) (i : Nat), position p l = some i →
      ∃ a, l[i]? = some a ∧ p a = true ∧ l.find? p = some a := by
  intro l
  induction l with
  | nil => intro i h; simp [position] at h
  | cons x xs ih =>
    intro i h
    by_cases hx : p x = true
    · simp only [position, if_pos hx, Option.some.injEq] at h
      subst h
      exact ⟨x, by simp, hx, by rw [List.find?_cons_of_pos _ hx]⟩
    · simp only [position, if_neg hx, Option.map_eq_some'] at h
      obtain ⟨j, hj, hi⟩ := h
      obtain ⟨a, ha, hpa, hfa⟩ := ih j hj
      subst hi
      refine ⟨a, ?_, hpa, ?_⟩
      · simpa using ha
      · rw [List.find?_cons_of_neg _ (by simpa using hx)]; exact hfa

/-- A successful collect has one output per input. -/
theorem collectOpt_some_length {f : α → Option β} :
    ∀ {l : List α} {r : List β}, collectOpt f l = some r → r.length = l.length := by
  intro l
  induction l with
  | nil =>
    intro r h
    simp only [collectOpt, Option.some.injEq] at h
    subst h; rfl
  | cons x xs ih =>
    intro r h
    simp only [collectOpt, Option.bind_eq_some, Option.map_eq_some'] at h
    obtain ⟨y, _, rs, hrs, hr⟩ := h
    subst hr
    simp [ih hrs]

/-- Elementwise characterisation of a successful collect. -/
theorem collectOpt_some_get {f : α → Option β} :
    ∀ {l : List α} {r : List β}, collectOpt f l = some r →
      ∀ (k : Nat), r[k]? = (l[k]?).bind f := by
  intro l
  induction l with
  | nil =>
    intro r h k
    simp only [collectOpt, Option.some.injEq] at h
    subst h
    cases k <;> rfl
  | cons x xs ih =>
    intro r h k
    simp only [collectOpt, Option.bind_eq_some, Option.map_eq_some'] at h
    obtain ⟨y, hy, rs, hrs, hr⟩ := h
    subst hr
    cases k with
    | zero => simpa using hy.symm
    | succ k => simpa using ih hrs k

/-- A collect over steps that all succeed succeeds. -/
theorem collectOpt_total {f : α → Option β} :
    ∀ {l : List α}, (∀ a ∈ l, (f a).isSome = true) → ∃ r, collectOpt f l = some r := by
  intro l
  induction l with
  | nil => intro _; exact ⟨[], rfl⟩
  | cons x xs ih =>
    intro h
    obtain ⟨y, hy⟩ := Option.isSome_iff_exists.mp (h x (by simp))
    obtain ⟨rs, hrs⟩ := ih (fun a ha => h a (by simp [ha]))
    exact ⟨y :: rs, by simp [collectOpt, hy, hrs]⟩

/-- Composing a successful collect with a pointwise-compatible second
pass: if every produced element b (from input a) maps under g to the same
result as a maps under h, then collecting g over the output agrees with
collecting h over the input, and both succeed. -/
theorem collectOpt_comp {f : α → Option β} {g : β → Option γ} {h : α → Option γ}
    (hpt : ∀ a b, f a = some b → ∃ c, g b = some c ∧ h a = some c) :
    ∀ {l : List α} {r : List β}, collectOpt f l = some r →
      ∃ s, collectOpt g r = some s ∧ collectOpt h l = some s := by
  intro l
  induction l with
  | nil =>
    intro r hr
    simp only [collectOpt, Option.some.injEq] at hr
    subst hr
    exact ⟨[], rfl, rfl⟩
  | cons x xs ih =>
    intro r hr
    simp only [collectOpt, Option.bind_eq_some, Option.map_eq_some'] at hr
    obtain ⟨y, hy, rs, hrs, hr⟩ := hr
    subst hr
    obtain ⟨c, hc, hhc⟩ := hpt x y hy
    obtain ⟨s, hs, hhs⟩ := ih hrs
    exact ⟨c :: s, by simp [collectOpt, hc, hs], by simp [collectOpt, hhc, hhs]⟩

/-- Inversion of a successful ParamDictionary::create_link. -/
theorem create_link_some_inv {d : ParamDictionary U B T} {info : ProgramInfo}
    {link : ParamDictionaryLink}
    (h : ParamDictionary.create_link (some d) info = some (Except.ok link)) :
    resolve d.uniforms info.uniforms = some link.uniforms ∧
    resolve d.blocks info.blocks = some link.blocks ∧
    resolve d.textures info.textures = some link.textures := by
  simp only [ParamDictionary.create_link, Option.bind_eq_some, Option.map_eq_some',
    Except.ok.injEq] at h
  obtain ⟨us, hu, bs, hb, ts, ht, hlink⟩ := h
  subst hlink
  exact ⟨hu, hb, ht⟩

/-- Inversion of a successful ParamDictionary::fill_params. -/
theorem fill_params_some_inv {d : ParamDictionary U B T} {link : ParamDictionaryLink}
    {sink out : ParamValues U B T}
    (h : ParamDictionary.fill_params d link sink = some out) :
    ∃ us bs ts,
      fetch d.uniforms link.uniforms = some us ∧
      fetch d.blocks link.blocks = some bs ∧
      fetch d.textures link.textures = some ts ∧
      out = ⟨sink.uniforms ++ us, sink.blocks ++ bs, sink.textures ++ ts⟩ := by
  simp only [ParamDictionary.fill_params, Option.bind_eq_some, Option.map_eq_some'] at h
  obtain ⟨us, hu, bs, hb, ts, ht, hout⟩ := h
  exact ⟨us, bs, ts, hu, hb, ht, hout.symm⟩

/-- The values fetched through resolved indices are the current values of
the first name-matching cells, in requirement order. -/
theorem resolve_fetch {cells : List (NamedCell γ)} {vars : List VarInfo} {ids : List Nat}
    (h : resolve cells vars = some ids) :
    ∃ vals, fetch cells ids = some vals ∧
      collectOpt (fun v => (cells.find? (fun c => c.name == v.name)).map
        (fun c => c.value)) vars = some vals := by
  refine collectOpt_comp ?_ h
  intro v i hi
  obtain ⟨a, ha, _, hfa⟩ := position_spec _ cells i hi
  exact ⟨a.value, by simp [ha], by simp [hfa]⟩

/-- Whether a link-creation outcome is a success. -/
def isOkResult : Except ParameterError ParamDictionaryLink → Bool
  | Except.ok _ => true
  | Except.error _ => false

/-! ### Claim theorems -/

/-- C1: the spec requires a Parameter Dictionary lookup failure to be
returned as the typed MissingTexture error, but the source unwraps the
failed position lookup and aborts: on a dictionary with no texture cells
and an interface requiring texture "diffuse", create_link panics
(modelled as none) instead of returning
some (error (MissingTexture "diffuse")). -/
theorem createLink_missing_name_aborts :
    ParamDictionary.create_link (some (⟨[], [], []⟩ : ParamDictionary Int Int Int))
      ⟨[], [], [⟨"diffuse"⟩]⟩ = none := rfl

/-- C2 counterexample: the ParamDictionary implementation of create_link,
given source None and an interface with zero requirements, does not
succeed — it returns Err(ParameterGeneralMismatch), refuting the claim
for this implementation. -/
theorem paramDict_createLink_none_source_rejected :
    ParamDictionary.create_link (none : Option (ParamDictionary Int Int Int)) ⟨[], [], []⟩
      = some (Except.error ParameterError.ParameterGeneralMismatch) ∧
    (ParamDictionary.create_link (none : Option (ParamDictionary Int Int Int))
      ⟨[], [], []⟩).map isOkResult = some false :=
  ⟨rfl, rfl⟩

/-- C2 amended: with source None and an interface with zero requirements,
the no-parameter implementation () succeeds with the empty Link, but the
ParamDictionary implementation fails with ParameterGeneralMismatch (it
rejects a None source before looking at the interface). -/
theorem createLink_none_source_amended (U B T : Type) :
    (∀ (src : Option Unit), unitCreateLink src ⟨[], [], []⟩ = Except.ok ()) ∧
    (∀ (info : ProgramInfo),
      ParamDictionary.create_link (none : Option (ParamDictionary U B T)) info
        = some (Except.error ParameterError.ParameterGeneralMismatch)) :=
  ⟨fun _ => rfl, fun _ => rfl⟩

/-- C3 counterexample: the no-parameter implementation () of create_link,
given source None and an interface with one required uniform "u", fails
with MissingUniform "u", not with ParameterGeneralMismatch, refuting the
claim for this implementation. -/
theorem unit_createLink_none_source_missing_uniform :
    unitCreateLink none ⟨[⟨"u"⟩], [], []⟩
      = Except.error (ParameterError.MissingUniform "u") ∧
    ParameterError.MissingUniform "u" ≠ ParameterError.ParameterGeneralMismatch :=
  ⟨rfl, by decide⟩

/-- C3 amended: with source None and an interface with at least one
requirement, the ParamDictionary implementation fails with
ParameterGeneralMismatch (it does so for every interface), while the
no-parameter implementation () ignores the source and never returns
ParameterGeneralMismatch — it fails with the
MissingUniform / MissingBlock / MissingTexture error naming the first
requirement, uniforms checked before blocks and blocks before
textures. -/
theorem createLink_none_source_nonempty_amended (U B T : Type) :
    (∀ (info : ProgramInfo),
      ParamDictionary.create_link (none : Option (ParamDictionary U B T)) info
        = some (Except.error ParameterError.ParameterGeneralMismatch)) ∧
    (∀ (src : Option Unit) (info : ProgramInfo),
      info.uniforms ≠ [] ∨ info.blocks ≠ [] ∨ info.textures ≠ [] →
        unitCreateLink src info ≠ Except.error ParameterError.ParameterGeneralMismatch ∧
        ((∃ u us, info.uniforms = u :: us ∧
            unitCreateLink src info
              = Except.error (ParameterError.MissingUniform u.name)) ∨
         (∃ b bs, info.uniforms = [] ∧ info.blocks = b :: bs ∧
            unitCreateLink src info
              = Except.error (ParameterError.MissingBlock b.name)) ∨
         (∃ t ts, info.uniforms = [] ∧ info.blocks = [] ∧ info.textures = t :: ts ∧
            unitCreateLink src info
              = Except.error (ParameterError.MissingTexture t.name)))) := by
  refine ⟨fun _ => rfl, ?_⟩
  intro src info h
  obtain ⟨us, bs, ts⟩ := info
  cases us with
  | cons u us =>
    exact ⟨by simp [unitCreateLink], Or.inl ⟨u, us, rfl, rfl⟩⟩
  | nil =>
    cases bs with
    | cons b bs =>
      exact ⟨by simp [unitCreateLink], Or.inr (Or.inl ⟨b, bs, rfl, rfl, rfl⟩)⟩
    | nil =>
      cases ts with
      | cons t ts =>
        exact ⟨by simp [unitCreateLink], Or.inr (Or.inr ⟨t, ts, rfl, rfl, rfl, rfl⟩)⟩
      | nil =>
        rcases h with h | h | h <;> exact absurd rfl h

/-- C3 amended, witness at a concrete input: source None, one required
uniform "u" — the result is MissingUniform "u", not
ParameterGeneralMismatch. -/
theorem createLink_none_source_nonempty_amended_witness :
    unitCreateLink none ⟨[⟨"u"⟩], [], []⟩
        ≠ Except.error ParameterError.ParameterGeneralMismatch ∧
    ((∃ u us, ([⟨"u"⟩] : List VarInfo) = u :: us ∧
        unitCreateLink none ⟨[⟨"u"⟩], [], []⟩
          = Except.error (ParameterError.MissingUniform u.name)) ∨
     (∃ b bs, ([⟨"u"⟩] : List VarInfo) = [] ∧ ([] : List VarInfo) = b :: bs ∧
        unitCreateLink none ⟨[⟨"u"⟩], [], []⟩
          = Except.error (ParameterError.MissingBlock b.name)) ∨
     (∃ t ts, ([⟨"u"⟩] : List VarInfo) = [] ∧ ([] : List VarInfo) = [] ∧
        ([] : List VarInfo) = t :: ts ∧
        unitCreateLink none ⟨[⟨"u"⟩], [], []⟩
          = Except.error (ParameterError.MissingTexture t.name))) :=
  (createLink_none_source_nonempty_amended Int Int Int).2 none ⟨[⟨"u"⟩], [], []⟩
    (Or.inl (List.cons_ne_nil _ _))

/-- C4: create_link for the no-parameter source () succeeds exactly when
the interface has zero required uniforms, blocks and textures; otherwise
it fails with the Missing error of the first unmet requirement, uniforms
checked before blocks and blocks before textures, the first name within
a category winning. -/
theorem unit_createLink_characterisation (src : Option Unit) (info : ProgramInfo) :
    (unitCreateLink src info = Except.ok () ↔
        info.uniforms = [] ∧ info.blocks = [] ∧ info.textures = []) ∧
    (∀ u us, info.uniforms = u :: us →
        unitCreateLink src info = Except.error (ParameterError.MissingUniform u.name)) ∧
    (∀ b bs, info.uniforms = [] → info.blocks = b :: bs →
        unitCreateLink src info = Except.error (ParameterError.MissingBlock b.name)) ∧
    (∀ t ts, info.uniforms = [] → info.blocks = [] → info.textures = t :: ts →
        unitCreateLink src info = Except.error (ParameterError.MissingTexture t.name)) := by
  obtain ⟨us, bs, ts⟩ := info
  cases us <;> cases bs <;> cases ts <;> simp [unitCreateLink]

/-- C4, witness at a concrete input: an interface with no uniforms, one
block "blk" and one texture reports MissingBlock "blk". -/
theorem unit_createLink_characterisation_witness :
    unitCreateLink (some ()) ⟨[], [⟨"blk"⟩], [⟨"tex"⟩]⟩
      = Except.error (ParameterError.MissingBlock "blk") :=
  (unit_createLink_characterisation (some ()) ⟨[], [⟨"blk"⟩], [⟨"tex"⟩]⟩).2.2.1
    ⟨"blk"⟩ [] rfl rfl

/-- C5: a successful fill through a link created for an interface appends,
per category, exactly the current values of the first name-matching
dictionary cells, one per interface requirement and in interface
declaration order (not dictionary order); the values come from the
dictionary passed to the fill call itself, so a fill after cell
overwrites observes the overwritten values. -/
theorem fillParams_appends_current_values_in_interface_order
    (d : ParamDictionary U B T) (info : ProgramInfo) (link : ParamDictionaryLink)
    (sink : ParamValues U B T)
    (h : ParamDictionary.create_link (some d) info = some (Except.ok link)) :
    ∃ us bs ts,
      collectOpt (fun v => (d.uniforms.find? (fun c => c.name == v.name)).map
        (fun c => c.value)) info.uniforms = some us ∧
      collectOpt (fun v => (d.blocks.find? (fun c => c.name == v.name)).map
        (fun c => c.value)) info.blocks = some bs ∧
      collectOpt (fun v => (d.textures.find? (fun c => c.name == v.name)).map
        (fun c => c.value)) info.textures = some ts ∧
      ParamDictionary.fill_params d link sink
        = some ⟨sink.uniforms ++ us, sink.blocks ++ bs, sink.textures ++ ts⟩ := by
  obtain ⟨hu, hb, ht⟩ := create_link_some_inv h
  obtain ⟨us, hfu, hcu⟩ := resolve_fetch hu
  obtain ⟨bs, hfb, hcb⟩ := resolve_fetch hb
  obtain ⟨ts, hft, hct⟩ := resolve_fetch ht
  exact ⟨us, bs, ts, hcu, hcb, hct, by
    simp [ParamDictionary.fill_params, hfu, hfb, hft]⟩

/-- C5, witness: cells a=1 and b=2 (in that dictionary order), interface
requiring b then a — the link resolves to positions [1, 0] and fill
appends [2, 1], interface order. -/
theorem fillParams_interface_order_witness :
    ParamDictionary.create_link
        (some (⟨[⟨"a", UniformValue.I32 1⟩, ⟨"b", UniformValue.I32 2⟩], [], []⟩ :
          ParamDictionary (UniformValue Int Int) Int Int))
        ⟨[⟨"b"⟩, ⟨"a"⟩], [], []⟩ = some (Except.ok ⟨[1, 0], [], []⟩) ∧
    ParamDictionary.fill_params
        (⟨[⟨"a", UniformValue.I32 1⟩, ⟨"b", UniformValue.I32 2⟩], [], []⟩ :
          ParamDictionary (UniformValue Int Int) Int Int)
        ⟨[1, 0], [], []⟩ ⟨[], [], []⟩
      = some ⟨[UniformValue.I32 2, UniformValue.I32 1], [], []⟩ := by
  refine ⟨rfl, ?_⟩
  obtain ⟨us, bs, ts, hcu, hcb, hct, hfill⟩ :=
    fillParams_appends_current_values_in_interface_order
      (⟨[⟨"a", UniformValue.I32 1⟩, ⟨"b", UniformValue.I32 2⟩], [], []⟩ :
        ParamDictionary (UniformValue Int Int) Int Int)
      ⟨[⟨"b"⟩, ⟨"a"⟩], [], []⟩ ⟨[1, 0], [], []⟩ ⟨[], [], []⟩ rfl
  injection hcu with h1
  injection hcb with h2
  injection hct with h3
  subst h1
  subst h2
  subst h3
  simpa using hfill

/-- Lengths and name agreement of the indices produced by the lookup loop
of create_link for one category. -/
theorem resolve_index_names {cells : List (NamedCell γ)} {vars : List VarInfo} {ids : List Nat}
    (h : resolve cells vars = some ids) :
    ids.length = vars.length ∧
    ∀ (k i : Nat), ids[k]? = some i →
      i < cells.length ∧
      ∃ c v, cells[i]? = some c ∧ vars[k]? = some v ∧ c.name = v.name := by
  refine ⟨collectOpt_some_length h, ?_⟩
  intro k i hki
  have hg := collectOpt_some_get h k
  rw [hki] at hg
  rcases hv : vars[k]? with _ | v <;> rw [hv] at hg
  · simp at hg
  · simp only [Option.some_bind] at hg
    obtain ⟨a, ha, hpa, _⟩ := position_spec _ cells i hg.symm
    have hlen : i < cells.length := by
      by_contra hge
      rw [List.getElem?_eq_none (Nat.le_of_not_lt hge)] at ha
      exact Option.noConfusion ha
    exact ⟨hlen, a, v, ha, rfl, by simpa using hpa⟩

/-- C6: whenever ParamDictionary::create_link succeeds, the produced
link's three index sequences have the lengths of the interface's three
requirement lists, and every recorded index is a valid position in the
corresponding cell sequence, naming a cell whose name equals the name of
the corresponding interface requirement. -/
theorem createLink_link_invariant
    (d : ParamDictionary U B T) (info : ProgramInfo) (link : ParamDictionaryLink)
    (h : ParamDictionary.create_link (some d) info = some (Except.ok link)) :
    (link.uniforms.length = info.uniforms.length ∧
      link.blocks.length = info.blocks.length ∧
      link.textures.length = info.textures.length) ∧
    (∀ (k i : Nat), link.uniforms[k]? = some i →
      i < d.uniforms.length ∧
      ∃ c v, d.uniforms[i]? = some c ∧ info.uniforms[k]? = some v ∧ c.name = v.name) ∧
    (∀ (k i : Nat), link.blocks[k]? = some i →
      i < d.blocks.length ∧
      ∃ c v, d.blocks[i]? = some c ∧ info.blocks[k]? = some v ∧ c.name = v.name) ∧
    (∀ (k i : Nat), link.textures[k]? = some i →
      i < d.textures.length ∧
      ∃ c v, d.textures[i]? = some c ∧ info.textures[k]? = some v ∧ c.name = v.name) := by
  obtain ⟨hu, hb, ht⟩ := create_link_some_inv h
  obtain ⟨hul, hui⟩ := resolve_index_names hu
  obtain ⟨hbl, hbi⟩ := resolve_index_names hb
  obtain ⟨htl, hti⟩ := resolve_index_names ht
  exact ⟨⟨hul, hbl, htl⟩, hui, hbi, hti⟩

/-- C6, witness at a concrete input: the one-cell dictionary x=7 linked
against an interface requiring uniform x. -/
theorem createLink_link_invariant_witness :
    ((([0] : List Nat).length = ([⟨"x"⟩] : List VarInfo).length ∧
      ([] : List Nat).length = ([] : List VarInfo).length ∧
      ([] : List Nat).length = ([] : List VarInfo).length) ∧
    (∀ (k i : Nat), ([0] : List Nat)[k]? = some i →
      i < ([⟨"x", (7 : Int)⟩] : List (NamedCell Int)).length ∧
      ∃ c v, ([⟨"x", (7 : Int)⟩] : List (NamedCell Int))[i]? = some c ∧
        ([⟨"x"⟩] : List VarInfo)[k]? = some v ∧ c.name = v.name) ∧
    (∀ (k i : Nat), ([] : List Nat)[k]? = some i →
      i < ([] : List (NamedCell Int)).length ∧
      ∃ c v, ([] : List (NamedCell Int))[i]? = some c ∧
        ([] : List VarInfo)[k]? = some v ∧ c.name = v.name) ∧
    (∀ (k i : Nat), ([] : List Nat)[k]? = some i →
      i < ([] : List (NamedCell Int)).length ∧
      ∃ c v, ([] : List (NamedCell Int))[i]? = some c ∧
        ([] : List VarInfo)[k]? = some v ∧ c.name = v.name)) :=
  createLink_link_invariant
    (⟨[⟨"x", (7 : Int)⟩], [], []⟩ : ParamDictionary Int Int Int)
    ⟨[⟨"x"⟩], [], []⟩ ⟨[0], [], []⟩ rfl

/-- C7: each supported native type converts by to_uniform to the variant
tagged for its shape, carrying exactly the input as payload; the
functions are pure total Lean functions, parametric in the payload
types, so no element is altered for any payload representation. -/
theorem toUniform_shape_exact :
    ∀ (I F : Type) (a : I) (b : F) (v2 : I × I) (v3 : I × I × I) (v4 : I × I × I × I)
      (w2 : F × F) (w3 : F × F × F) (w4 : F × F × F × F)
      (m2 : (F × F) × (F × F)) (m3 : (F × F × F) × (F × F × F) × (F × F × F))
      (m4 : (F × F × F × F) × (F × F × F × F) × (F × F × F × F) × (F × F × F × F)),
      (toUniformI32 a : UniformValue I F) = UniformValue.I32 a ∧
      (toUniformF32 b : UniformValue I F) = UniformValue.F32 b ∧
      (toUniformI32Vector2 v2 : UniformValue I F) = UniformValue.I32Vector2 v2 ∧
      (toUniformI32Vector3 v3 : UniformValue I F) = UniformValue.I32Vector3 v3 ∧
      (toUniformI32Vector4 v4 : UniformValue I F) = UniformValue.I32Vector4 v4 ∧
      (toUniformF32Vector2 w2 : UniformValue I F) = UniformValue.F32Vector2 w2 ∧
      (toUniformF32Vector3 w3 : UniformValue I F) = UniformValue.F32Vector3 w3 ∧
      (toUniformF32Vector4 w4 : UniformValue I F) = UniformValue.F32Vector4 w4 ∧
      (toUniformF32Matrix2 m2 : UniformValue I F) = UniformValue.F32Matrix2 m2 ∧
      (toUniformF32Matrix3 m3 : UniformValue I F) = UniformValue.F32Matrix3 m3 ∧
      (toUniformF32Matrix4 m4 : UniformValue I F) = UniformValue.F32Matrix4 m4 :=
  fun _ _ _ _ _ _ _ _ _ _ _ _ _ =>
    ⟨rfl, rfl, rfl, rfl, rfl, rfl, rfl, rfl, rfl, rfl, rfl⟩

/-- C8: the contribution a fill appends is a function of the dictionary
and the link alone — whatever fill appends starting from the empty sink,
it appends identically onto any sink; fill takes the dictionary, link
and sink as read-only inputs (the Rust source borrows self and the link
immutably and only reads cells). -/
theorem fillParams_contribution_determined
    (d : ParamDictionary U B T) (link : ParamDictionaryLink) (c : ParamValues U B T)
    (h : ParamDictionary.fill_params d link ⟨[], [], []⟩ = some c)
    (sink : ParamValues U B T) :
    ParamDictionary.fill_params d link sink
      = some ⟨sink.uniforms ++ c.uniforms, sink.blocks ++ c.blocks,
          sink.textures ++ c.textures⟩ := by
  obtain ⟨us, bs, ts, hu, hb, ht, hc⟩ := fill_params_some_inv h
  subst hc
  simp [ParamDictionary.fill_params, hu, hb, ht]

/-- C8, witness: filling x=7 through index 0 onto the sink [5] appends
the same single value 7 that it appends onto the empty sink. -/
theorem fillParams_contribution_determined_witness :
    ParamDictionary.fill_params (⟨[⟨"x", (7 : Int)⟩], [], []⟩ : ParamDictionary Int Int Int)
      ⟨[0], [], []⟩ ⟨[5], [], []⟩ = some ⟨[5, 7], [], []⟩ :=
  fillParams_contribution_determined
    (⟨[⟨"x", (7 : Int)⟩], [], []⟩ : ParamDictionary Int Int Int)
    ⟨[0], [], []⟩ ⟨[7], [], []⟩ rfl ⟨[5], [], []⟩

/-- C9: a successful fill only appends — the sink's prior contents are an
unchanged prefix of each of the three output sequences — and the
no-parameter source's fill appends nothing at all. -/
theorem fillParams_append_only
    (d : ParamDictionary U B T) (link : ParamDictionaryLink) (sink out : ParamValues U B T)
    (h : ParamDictionary.fill_params d link sink = some out) :
    (∃ us, out.uniforms = sink.uniforms ++ us) ∧
    (∃ bs, out.blocks = sink.blocks ++ bs) ∧
    (∃ ts, out.textures = sink.textures ++ ts) ∧
    (∀ (s : ParamValues U B T), unitFillParams () () s = s) := by
  obtain ⟨us, bs, ts, _, _, _, hout⟩ := fill_params_some_inv h
  subst hout
  exact ⟨⟨us, rfl⟩, ⟨bs, rfl⟩, ⟨ts, rfl⟩, fun _ => rfl⟩

/-- C9, witness at a concrete input: appending onto the sink [5]. -/
theorem fillParams_append_only_witness :
    (∃ us, ([5, 7] : List Int) = [5] ++ us) ∧
    (∃ bs, ([] : List Int) = [] ++ bs) ∧
    (∃ ts, ([] : List Int) = [] ++ ts) ∧
    (∀ (s : ParamValues Int Int Int), unitFillParams () () s = s) :=
  fillParams_append_only (⟨[⟨"x", (7 : Int)⟩], [], []⟩ : ParamDictionary Int Int Int)
    ⟨[0], [], []⟩ ⟨[5], [], []⟩ ⟨[5, 7], [], []⟩ rfl

/-- C10: if every index recorded in the link is strictly below the length
of the dictionary's corresponding cell sequence, fill_params is total:
every cell access succeeds and the out-of-bounds panic branch (modelled
as none) is unreachable. -/
theorem fillParams_total_on_valid_link
    (d : ParamDictionary U B T) (link : ParamDictionaryLink) (sink : ParamValues U B T)
    (hu : ∀ i ∈ link.uniforms, i < d.uniforms.length)
    (hb : ∀ i ∈ link.blocks, i < d.blocks.length)
    (ht : ∀ i ∈ link.textures, i < d.textures.length) :
    ∃ out, ParamDictionary.fill_params d link sink = some out := by
  obtain ⟨us, hus⟩ : ∃ us, fetch d.uniforms link.uniforms = some us :=
    collectOpt_total (fun i hi => by simp [List.getElem?_eq_getElem (hu i hi)])
  obtain ⟨bs, hbs⟩ : ∃ bs, fetch d.blocks link.blocks = some bs :=
    collectOpt_total (fun i hi => by simp [List.getElem?_eq_getElem (hb i hi)])
  obtain ⟨ts, hts⟩ : ∃ ts, fetch d.textures link.textures = some ts :=
    collectOpt_total (fun i hi => by simp [List.getElem?_eq_getElem (ht i hi)])
  exact ⟨⟨sink.uniforms ++ us, sink.blocks ++ bs, sink.textures ++ ts⟩,
    by simp [ParamDictionary.fill_params, hus, hbs, hts]⟩

/-- C10, witness at a concrete input: index 0 into the one-cell
dictionary is in bounds, so the fill succeeds. -/
theorem fillParams_total_on_valid_link_witness :
    ∃ out, ParamDictionary.fill_params
      (⟨[⟨"x", (7 : Int)⟩], [], []⟩ : ParamDictionary Int Int Int)
      ⟨[0], [], []⟩ ⟨[], [], []⟩ = some out :=
  fillParams_total_on_valid_link
    (⟨[⟨"x", (7 : Int)⟩], [], []⟩ : ParamDictionary Int Int Int)
    ⟨[0], [], []⟩ ⟨[], [], []⟩ (by decide) (by decide) (by decide)
